import Mathlib

/-!
Shallow embedding of the chat-relay bot in `src/main.py`.

The program keeps a process-wide dictionary `chat_histories` from chat id to
a list of message dicts, each with a `role` and `content` string.  An inbound
text message is handled by `handle_message`: it looks up (or seeds, with the
system prompt) the history, appends the user turn, calls the completion API
via `get_llm_response`, and on a truthy reply appends the assistant turn,
truncates the history to the first element plus the last 19 when its length
exceeds 20, stores it back, and sends the reply.  On a falsy reply it sends a
generic failure text.  `main` refuses to start polling when the system prompt
failed to load or the Telegram token is missing.

The embedding models Python aliasing faithfully: for an existing conversation
the local `history` list is the same object as the stored one, so the user
turn append mutates the store even when the line-119 assignment is skipped;
for a fresh conversation the list is local until that assignment runs.
-/

/-- A message dict `{"role": ..., "content": ...}` as used for history entries. -/
structure Turn where
  role : String
  content : String
deriving DecidableEq

/-- The user turn appended at line 92 of `main.py`. -/
def userTurn (msg : String) : Turn := Turn.mk "user" msg

/-- The assistant turn appended at line 113 of `main.py`. -/
def assistantTurn (s : String) : Turn := Turn.mk "assistant" s

/-- Abstraction of the HTTP response body of the completions endpoint:
either it fails to parse as JSON, or it parses but
`data['choices'][0]['message']['content']` is not present, or that path
yields the string `s`. -/
inductive Body where
  | notJson
  | jsonNoContent
  | jsonContent (s : String)
deriving DecidableEq

/-- Outcome of the `requests.post` call in `get_llm_response`: either the
request itself fails (connection error and the like, a
`requests.exceptions.RequestException`), or an HTTP reply with a status code
and a body arrives. -/
inductive ApiResponse where
  | netError
  | httpReply (status : Nat) (body : Body)
deriving DecidableEq

/-- `get_llm_response` (lines 35-58 of `main.py`), given the outcome of the
POST.  `Except.error ()` models an exception escaping the function: the
`except` clause catches only `requests.exceptions.RequestException`, which
covers connection errors, the `HTTPError` that `raise_for_status` raises for
4xx/5xx statuses, and the `JSONDecodeError` from `response.json()` on a
non-JSON body — but not the `KeyError`/`IndexError`/`TypeError` raised when a
well-formed JSON body lacks `choices[0].message.content`.  `Except.ok none`
is the caught-failure return `None`. -/
def get_llm_response (resp : ApiResponse) : Except Unit (Option String) :=
  match resp with
  | .netError => Except.ok none
  | .httpReply status body =>
    if 400 ≤ status ∧ status < 600 then Except.ok none
    else
      match body with
      | .notJson => Except.ok none
      | .jsonNoContent => Except.error ()
      | .jsonContent s => Except.ok (some s)

/-- What `handle_message` does towards the user at the end of one message:
either a text is sent, or an uncaught exception escapes the handler and
nothing is sent. -/
inductive Reply where
  | text (s : String)
  | crash
deriving DecidableEq

/-- The generic failure text sent at lines 122-125 of `main.py`. -/
def apiErrorText : String := "Извините, произошла ошибка при обращении к модели."

/-- The text sent at lines 98-101 when the API key is missing. -/
def noKeyText : String := "Ошибка: Ключ API для OpenRouter не настроен."

/-- The text sent at lines 85-88 when the system prompt is not loaded. -/
def noPromptText : String := "Критическая ошибка: Системный промпт не загружен."

/-- Lines 79-89: the local `history` before the user turn is appended —
the stored list for an existing conversation, `[SYSTEM_PROMPT]` for a fresh
one, or nothing when the prompt failed to load (the handler bails out). -/
def seedHistory (sp : Option Turn) (stored : Option (List Turn)) : Option (List Turn) :=
  match stored with
  | some h => some h
  | none =>
    match sp with
    | some p => some [p]
    | none => none

/-- The message list passed to `get_llm_response` for this message: the seed
history with the user turn appended (lines 92 and 107-109). -/
def sentHistory (sp : Option Turn) (stored : Option (List Turn)) (msg : String) :
    Option (List Turn) :=
  (seedHistory sp stored).map (fun h => h ++ [userTurn msg])

/-- The store entry after the in-place `history.append` of the user turn:
for an existing conversation the stored list is the same object as the local
one, so the store now holds the extended list; for a fresh conversation the
list is only local and the store still has no entry. -/
def storedAfterUser (stored : Option (List Turn)) (hist : List Turn) :
    Option (List Turn) :=
  match stored with
  | some _ => some hist
  | none => none

/-- Lines 115-117: `if len(history) > 20: history = [history[0]] + history[-19:]`. -/
def truncateHistory (h : List Turn) : List Turn :=
  if 20 < h.length then h.take 1 ++ h.drop (h.length - 19) else h

/-- `handle_message` (lines 73-125 of `main.py`) for one inbound text, acting
on this conversation's store entry.  `sp` is `SYSTEM_PROMPT`, `key` is
`os.getenv("OPENROUTER_API_KEY")` (`none` for unset; the code also treats the
empty string as missing via `if not ...`), `api` gives the endpoint's
response to the posted message list, `stored` is the current store entry.
Returns the store entry after the message and what the user sees. -/
def handle_message (sp : Option Turn) (key : Option String)
    (api : List Turn → ApiResponse) (stored : Option (List Turn)) (msg : String) :
    Option (List Turn) × Reply :=
  match sentHistory sp stored msg with
  | none => (none, Reply.text noPromptText)
  | some hist =>
    match key with
    | none => (storedAfterUser stored hist, Reply.text noKeyText)
    | some k =>
      if k = "" then (storedAfterUser stored hist, Reply.text noKeyText)
      else
        match get_llm_response (api hist) with
        | Except.error _ => (storedAfterUser stored hist, Reply.crash)
        | Except.ok r =>
          match r with
          | some s =>
            if s = "" then (storedAfterUser stored hist, Reply.text apiErrorText)
            else (some (truncateHistory (hist ++ [assistantTurn s])), Reply.text s)
          | none => (storedAfterUser stored hist, Reply.text apiErrorText)

/-- The global `chat_histories` dictionary, as an association list. -/
abbrev Store := List (Nat × List Turn)

/-- `chat_histories = {}` at line 20: the store the process starts with. -/
def initialStore : Store := []

/-- `chat_histories.get(chat_id)`. -/
def lookupStore : Store → Nat → Option (List Turn)
  | [], _ => none
  | (c', h) :: rest, c => if c' = c then some h else lookupStore rest c

/-- Writing an entry of `chat_histories` (replace if present, add if not). -/
def setStore : Store → Nat → List Turn → Store
  | [], c, h => [(c, h)]
  | (c', h') :: rest, c, h =>
    if c' = c then (c, h) :: rest else (c', h') :: setStore rest c h

/-- One inbound message handled against the whole store: the entry value
produced by `handle_message` is written back (an absent result means the
entry was absent and stays absent). -/
def stepStore (sp : Option Turn) (key : Option String)
    (api : List Turn → ApiResponse) (s : Store) (c : Nat) (msg : String) :
    Store × Reply :=
  match handle_message sp key api (lookupStore s c) msg with
  | (none, r) => (s, r)
  | (some h, r) => (setStore s c h, r)

/-- A sequence of inbound messages for one conversation, tracking only its
own store entry (a faithful view: distinct chat ids do not interact). -/
def runConv (sp : Option Turn) (key : Option String)
    (api : List Turn → ApiResponse) :
    Option (List Turn) → List String → Option (List Turn)
  | stored, [] => stored
  | stored, m :: ms => runConv sp key api (handle_message sp key api stored m).1 ms

/-- An endpoint that always answers HTTP 200 with a well-formed body whose
reply text is `f` of the posted message list. -/
def okApi (f : List Turn → String) : List Turn → ApiResponse :=
  fun h => ApiResponse.httpReply 200 (Body.jsonContent (f h))

/-- The mock endpoint of the spec's round-trip property: it echoes
`"echo:" ++` the content of the last turn with role `"user"`. -/
def echoApi : List Turn → ApiResponse :=
  okApi (fun h =>
    "echo:" ++
      (match h.reverse.find? (fun t => t.role == "user") with
       | some t => t.content
       | none => ""))

/-- `main` (lines 129-147): `run_polling` is reached iff the system prompt
loaded and the Telegram token is set and non-empty.  The completion API key
plays no part in startup — it is read per message inside `handle_message`. -/
def startsServing (sp : Option Turn) (telegramToken : Option String)
    (apiKey : Option String) : Bool :=
  match sp with
  | none => false
  | some _ =>
    match telegramToken with
    | none => false
    | some t => ¬ (t = "")

/-- A fixed system prompt used for concrete runs. -/
def p0 : Turn := Turn.mk "system" "Ты полезный ассистент."

/-! ### Helper lemmas -/

/-- The last `n` elements of a list (all of it when shorter). -/
def lastN {α : Type} (n : Nat) (l : List α) : List α := l.drop (l.length - n)

lemma lastN_of_length_le {α : Type} (n : Nat) (l : List α) (h : l.length ≤ n) :
    lastN n l = l := by
  unfold lastN
  have : l.length - n = 0 := by omega
  rw [this, List.drop_zero]

lemma length_lastN_le {α : Type} (n : Nat) (l : List α) : (lastN n l).length ≤ n := by
  unfold lastN
  rw [List.length_drop]
  omega

lemma length_lastN_of_le {α : Type} (n : Nat) (l : List α) (h : n ≤ l.length) :
    (lastN n l).length = n := by
  unfold lastN
  rw [List.length_drop]
  omega

lemma lastN_append_lastN {α : Type} (n : Nat) (l r : List α) :
    lastN n (lastN n l ++ r) = lastN n (l ++ r) := by
  by_cases h : l.length ≤ n
  · rw [lastN_of_length_le n l h]
  · push_neg at h
    unfold lastN
    have hx : (l.drop (l.length - n)).length = n := by
      rw [List.length_drop]; omega
    rw [List.drop_append_eq_append_drop, List.drop_append_eq_append_drop,
        List.drop_drop, List.length_append, List.length_append, hx]
    congr 2 <;> omega

lemma truncateHistory_cons (p : Turn) (t : List Turn) :
    truncateHistory (p :: t) = p :: lastN 19 t := by
  unfold truncateHistory lastN
  by_cases h : 20 < (p :: t).length
  · rw [if_pos h]
    simp only [List.length_cons] at h ⊢
    have h1 : t.length + 1 - 19 = (t.length - 19) + 1 := by omega
    rw [h1]
    rfl
  · rw [if_neg h]
    simp only [List.length_cons] at h
    have : t.length - 19 = 0 := by omega
    rw [this, List.drop_zero]

lemma truncateHistory_length_le (l : List Turn) : (truncateHistory l).length ≤ 20 := by
  unfold truncateHistory
  by_cases h : 20 < l.length
  · rw [if_pos h]
    rw [List.length_append, List.length_take, List.length_drop]
    omega
  · rw [if_neg h]
    omega

lemma get_okApi (f : List Turn → String) (h : List Turn) :
    get_llm_response (okApi f h) = Except.ok (some (f h)) := rfl

/-- The success path of `handle_message` (lines 112-120 of `main.py`). -/
lemma handle_success (sp : Option Turn) (k : String) (api : List Turn → ApiResponse)
    (stored : Option (List Turn)) (msg : String) (hist : List Turn) (s : String)
    (hsent : sentHistory sp stored msg = some hist) (hk : ¬ k = "")
    (hres : get_llm_response (api hist) = Except.ok (some s)) (hs : ¬ s = "") :
    handle_message sp (some k) api stored msg =
      (some (truncateHistory (hist ++ [assistantTurn s])), Reply.text s) := by
  simp [handle_message, hsent, hk, hres, hs]

/-- The caught-failure path of `handle_message` (lines 121-125). -/
lemma handle_failure (sp : Option Turn) (k : String) (api : List Turn → ApiResponse)
    (stored : Option (List Turn)) (msg : String) (hist : List Turn)
    (hsent : sentHistory sp stored msg = some hist) (hk : ¬ k = "")
    (hres : get_llm_response (api hist) = Except.ok none) :
    handle_message sp (some k) api stored msg =
      (storedAfterUser stored hist, Reply.text apiErrorText) := by
  simp [handle_message, hsent, hk, hres]

/-- The empty-reply path: `if llm_response:` is false for `""`. -/
lemma handle_empty (sp : Option Turn) (k : String) (api : List Turn → ApiResponse)
    (stored : Option (List Turn)) (msg : String) (hist : List Turn)
    (hsent : sentHistory sp stored msg = some hist) (hk : ¬ k = "")
    (hres : get_llm_response (api hist) = Except.ok (some "")) :
    handle_message sp (some k) api stored msg =
      (storedAfterUser stored hist, Reply.text apiErrorText) := by
  simp [handle_message, hsent, hk, hres]

/-- The uncaught-exception path. -/
lemma handle_crash (sp : Option Turn) (k : String) (api : List Turn → ApiResponse)
    (stored : Option (List Turn)) (msg : String) (hist : List Turn)
    (hsent : sentHistory sp stored msg = some hist) (hk : ¬ k = "")
    (hres : get_llm_response (api hist) = Except.error ()) :
    handle_message sp (some k) api stored msg =
      (storedAfterUser stored hist, Reply.crash) := by
  simp [handle_message, hsent, hk, hres]

/-- The non-system turns a run generates: for each message, the user turn and
the assistant turn whose content the endpoint (`okApi f`) produces for the
posted list, with the history evolving exactly as in `handle_message`'s
success path. -/
def genTurns (f : List Turn → String) : List Turn → List String → List Turn
  | _, [] => []
  | h, m :: ms =>
    userTurn m :: assistantTurn (f (h ++ [userTurn m])) ::
      genTurns f
        (truncateHistory ((h ++ [userTurn m]) ++ [assistantTurn (f (h ++ [userTurn m]))]))
        ms

lemma length_genTurns (f : List Turn → String) (h : List Turn) (msgs : List String) :
    (genTurns f h msgs).length = 2 * msgs.length := by
  induction msgs generalizing h with
  | nil => rfl
  | cons m ms ih =>
    rw [genTurns]
    simp only [List.length_cons, ih, List.length_cons]
    omega

/-- Invariant of a run of successful exchanges: starting from a stored
history `p :: t` with at most 19 non-system turns, the stored history is
always `p` followed by the last 19 generated non-system turns. -/
lemma runConv_okApi_inv (f : List Turn → String) (hf : ∀ h, ¬ f h = "")
    (sp : Option Turn) (p : Turn) (k : String) (hk : ¬ k = "") :
    ∀ (msgs : List String) (t : List Turn), t.length ≤ 19 →
      runConv sp (some k) (okApi f) (some (p :: t)) msgs =
        some (p :: lastN 19 (t ++ genTurns f (p :: t) msgs)) := by
  intro msgs
  induction msgs with
  | nil =>
    intro t ht
    rw [runConv, genTurns, List.append_nil, lastN_of_length_le 19 t ht]
  | cons m ms ih =>
    intro t ht
    rw [runConv]
    rw [handle_success sp k (okApi f) (some (p :: t)) m ((p :: t) ++ [userTurn m])
          (f ((p :: t) ++ [userTurn m])) rfl hk (get_okApi f _) (hf _)]
    have hsplit : ((p :: t) ++ [userTurn m]) ++
        [assistantTurn (f ((p :: t) ++ [userTurn m]))] =
        p :: (t ++ [userTurn m, assistantTurn (f ((p :: t) ++ [userTurn m]))]) := by
      simp
    rw [hsplit, truncateHistory_cons]
    rw [ih (lastN 19 (t ++ [userTurn m, assistantTurn (f ((p :: t) ++ [userTurn m]))]))
          (length_lastN_le 19 _)]
    rw [genTurns, hsplit, truncateHistory_cons]
    rw [lastN_append_lastN]
    congr 2
    simp

/-- A run of successful exchanges from a fresh conversation: the stored
history is the system prompt followed by the last 19 generated turns. -/
lemma runConv_okApi_fresh (f : List Turn → String) (hf : ∀ h, ¬ f h = "")
    (p : Turn) (k : String) (hk : ¬ k = "") (m : String) (ms : List String) :
    runConv (some p) (some k) (okApi f) none (m :: ms) =
      some (p :: lastN 19 (genTurns f [p] (m :: ms))) := by
  rw [runConv]
  rw [handle_success (some p) k (okApi f) none m ([p] ++ [userTurn m])
        (f ([p] ++ [userTurn m])) rfl hk (get_okApi f _) (hf _)]
  have hsplit : ([p] ++ [userTurn m]) ++
      [assistantTurn (f ([p] ++ [userTurn m]))] =
      p :: [userTurn m, assistantTurn (f ([p] ++ [userTurn m]))] := by
    simp
  rw [hsplit, truncateHistory_cons,
      lastN_of_length_le 19 _ (by simp)]
  rw [runConv_okApi_inv f hf (some p) p k hk ms _ (by simp)]
  rw [genTurns, hsplit, truncateHistory_cons,
      lastN_of_length_le 19 [userTurn m, assistantTurn (f ([p] ++ [userTurn m]))] (by simp)]
  simp

/-- The store entry `handle_message` leaves behind is either the seed plus the
user turn (all non-success paths, via the in-place append), or the truncated
history with the assistant turn appended (success path). -/
lemma handle_shape (sp : Option Turn) (key : Option String)
    (api : List Turn → ApiResponse) (stored : Option (List Turn)) (msg : String)
    (hist : List Turn) (hsent : sentHistory sp stored msg = some hist) :
    (handle_message sp key api stored msg).1 = storedAfterUser stored hist ∨
    ∃ s, (handle_message sp key api stored msg).1 =
      some (truncateHistory (hist ++ [assistantTurn s])) := by
  cases key with
  | none => left; simp [handle_message, hsent]
  | some k =>
    by_cases hk : k = ""
    · left; simp [handle_message, hsent, hk]
    · cases hr : get_llm_response (api hist) with
      | error e => left; simp [handle_message, hsent, hk, hr]
      | ok r =>
        cases r with
        | none => left; simp [handle_message, hsent, hk, hr]
        | some s =>
          by_cases hs : s = ""
          · left; simp [handle_message, hsent, hk, hr, hs]
          · right; exact ⟨s, by simp [handle_message, hsent, hk, hr, hs]⟩

/-- Whatever path `handle_message` takes, a present store entry afterwards
still starts with the system prompt. -/
lemma handle_head (p : Turn) (key : Option String) (api : List Turn → ApiResponse)
    (stored : Option (List Turn)) (msg : String)
    (hstored : ∀ h, stored = some h → h.head? = some p)
    (h' : List Turn) (hres : (handle_message (some p) key api stored msg).1 = some h') :
    h'.head? = some p := by
  obtain ⟨h0, hseed, hhead⟩ :
      ∃ h0, seedHistory (some p) stored = some h0 ∧ h0.head? = some p := by
    cases stored with
    | none => exact ⟨[p], rfl, rfl⟩
    | some h => exact ⟨h, rfl, hstored h rfl⟩
  obtain ⟨t, ht⟩ : ∃ t, h0 = p :: t := by
    cases h0 with
    | nil => cases hhead
    | cons a t =>
      refine ⟨t, ?_⟩
      have : a = p := by simpa using hhead
      rw [this]
  have hsent : sentHistory (some p) stored msg = some (p :: (t ++ [userTurn msg])) := by
    unfold sentHistory
    rw [hseed, ht]
    rfl
  obtain hcase | ⟨s, hcase⟩ := handle_shape (some p) key api stored msg _ hsent
  · rw [hcase] at hres
    cases stored with
    | none => cases hres
    | some h =>
      have : h' = p :: (t ++ [userTurn msg]) := by
        simpa [storedAfterUser] using hres.symm
      rw [this]
      rfl
  · rw [hcase] at hres
    have : h' = truncateHistory (p :: ((t ++ [userTurn msg]) ++ [assistantTurn s])) := by
      simpa using hres.symm
    rw [this, truncateHistory_cons]
    rfl

lemma lookup_set_self (s : Store) (c : Nat) (h : List Turn) :
    lookupStore (setStore s c h) c = some h := by
  induction s with
  | nil => simp [setStore, lookupStore]
  | cons e rest ih =>
    obtain ⟨c', h'⟩ := e
    by_cases hc : c' = c
    · simp [setStore, lookupStore, hc]
    · simp [setStore, lookupStore, hc, ih]

lemma lookup_set_other (s : Store) (c c' : Nat) (h : List Turn) (hne : ¬ c = c') :
    lookupStore (setStore s c h) c' = lookupStore s c' := by
  induction s with
  | nil => simp [setStore, lookupStore, hne]
  | cons e rest ih =>
    obtain ⟨c'', h''⟩ := e
    by_cases hc : c'' = c
    · subst hc
      simp [setStore, lookupStore, hne]
    · simp [setStore, lookupStore, hc, ih]

/-- The responses on which `get_llm_response` raises an uncaught exception:
a non-error HTTP status whose body is JSON without the expected
`choices[0].message.content` path. -/
def crashes : ApiResponse → Bool
  | ApiResponse.httpReply st Body.jsonNoContent =>
    if 400 ≤ st ∧ st < 600 then false else true
  | _ => false

/-- The responses `get_llm_response` turns into the caught-failure `None`:
a request exception, a 4xx/5xx status, or a body that is not JSON. -/
def caughtFailure : ApiResponse → Bool
  | ApiResponse.netError => true
  | ApiResponse.httpReply st body =>
    if 400 ≤ st ∧ st < 600 then true
    else
      match body with
      | Body.notJson => true
      | _ => false

lemma get_error_iff_crashes (r : ApiResponse) :
    get_llm_response r = Except.error () ↔ crashes r = true := by
  cases r with
  | netError => simp [get_llm_response, crashes]
  | httpReply st body =>
    by_cases hst : 400 ≤ st ∧ st < 600
    · cases body <;> simp [get_llm_response, crashes, hst]
    · cases body <;> simp [get_llm_response, crashes, hst]

lemma get_none_of_caught (r : ApiResponse) (h : caughtFailure r = true) :
    get_llm_response r = Except.ok none := by
  cases r with
  | netError => rfl
  | httpReply st body =>
    by_cases hst : 400 ≤ st ∧ st < 600
    · simp [get_llm_response, hst]
    · cases body <;> simp_all [get_llm_response, caughtFailure, hst]

/-- The handler crashes exactly when `get_llm_response` raises. -/
lemma handle_crash_iff (sp : Option Turn) (k : String) (api : List Turn → ApiResponse)
    (stored : Option (List Turn)) (msg : String) (hist : List Turn)
    (hsent : sentHistory sp stored msg = some hist) (hk : ¬ k = "") :
    (handle_message sp (some k) api stored msg).2 = Reply.crash ↔
      get_llm_response (api hist) = Except.error () := by
  constructor
  · intro hcr
    cases hr : get_llm_response (api hist) with
    | error e => cases e; rfl
    | ok r =>
      cases r with
      | none =>
        rw [handle_failure sp k api stored msg hist hsent hk hr] at hcr
        cases hcr
      | some s =>
        by_cases hs : s = ""
        · subst hs
          rw [handle_empty sp k api stored msg hist hsent hk hr] at hcr
          cases hcr
        · rw [handle_success sp k api stored msg hist s hsent hk hr hs] at hcr
          cases hcr
  · intro herr
    rw [handle_crash sp k api stored msg hist hsent hk herr]

/-! ### Claims -/

/-- C4: for a conversation receiving 25 successful exchanges in sequence
(each appending one user and one assistant turn), the final History has
length exactly 20, its first element is the original system Turn, and its
remaining 19 elements are the most recent 19 of the 50 generated non-system
turns in their original relative order. -/
theorem C4_twentyfive_exchanges (f : List Turn → String) (p : Turn) (k : String)
    (msgs : List String) (hf : ∀ h, ¬ f h = "") (hk : ¬ k = "")
    (hlen : msgs.length = 25) :
    runConv (some p) (some k) (okApi f) none msgs =
      some (p :: lastN 19 (genTurns f [p] msgs)) ∧
    (p :: lastN 19 (genTurns f [p] msgs)).length = 20 ∧
    (p :: lastN 19 (genTurns f [p] msgs)).head? = some p ∧
    (genTurns f [p] msgs).length = 50 ∧
    lastN 19 (genTurns f [p] msgs) =
      (genTurns f [p] msgs).drop ((genTurns f [p] msgs).length - 19) := by
  cases msgs with
  | nil => simp at hlen
  | cons m ms =>
    have hG : (genTurns f [p] (m :: ms)).length = 50 := by
      rw [length_genTurns, hlen]
    refine ⟨runConv_okApi_fresh f hf p k hk m ms, ?_, rfl, hG, rfl⟩
    rw [List.length_cons, length_lastN_of_le 19 _ (by rw [hG]; omega)]

/-- Witness for C4 at a concrete prompt, key, endpoint and message list. -/
theorem C4_twentyfive_exchanges_witness :
    runConv (some p0) (some "k") (okApi (fun _ => "r")) none
        (List.replicate 25 "m") =
      some (p0 :: lastN 19 (genTurns (fun _ => "r") [p0] (List.replicate 25 "m"))) ∧
    (p0 :: lastN 19 (genTurns (fun _ => "r") [p0] (List.replicate 25 "m"))).length = 20 ∧
    (p0 :: lastN 19 (genTurns (fun _ => "r") [p0] (List.replicate 25 "m"))).head? =
      some p0 ∧
    (genTurns (fun _ => "r") [p0] (List.replicate 25 "m")).length = 50 ∧
    lastN 19 (genTurns (fun _ => "r") [p0] (List.replicate 25 "m")) =
      (genTurns (fun _ => "r") [p0] (List.replicate 25 "m")).drop
        ((genTurns (fun _ => "r") [p0] (List.replicate 25 "m")).length - 19) :=
  C4_twentyfive_exchanges (fun _ => "r") p0 "k" (List.replicate 25 "m")
    (fun _ => by show ¬ "r" = ""; decide) (by decide) (by decide)

/-- C6: with the echo endpoint, sending "a" then "b" to a fresh conversation
yields replies "echo:a" then "echo:b", and the message list posted on the
second call is exactly the system prompt, user "a", assistant "echo:a",
user "b", in that order. -/
theorem C6_round_trip (p : Turn) :
    handle_message (some p) (some "k") echoApi none "a" =
      (some [p, userTurn "a", assistantTurn "echo:a"], Reply.text "echo:a") ∧
    sentHistory (some p) (handle_message (some p) (some "k") echoApi none "a").1 "b" =
      some [p, userTurn "a", assistantTurn "echo:a", userTurn "b"] ∧
    (handle_message (some p) (some "k") echoApi
        (handle_message (some p) (some "k") echoApi none "a").1 "b").2 =
      Reply.text "echo:b" :=
  ⟨rfl, rfl, rfl⟩

/-- Every entry of the store starts with the turn `p`. -/
def storeHeadedBy (p : Turn) (s : Store) : Prop :=
  ∀ c h, lookupStore s c = some h → h.head? = some p

/-- C5: when the configured system prompt is `p` (a turn with role
"system"), handling any message preserves the invariant that every stored
History is non-empty and has `p` as its first element — no update, the
truncation included, ever evicts it.  The empty initial store satisfies the
invariant vacuously. -/
theorem C5_system_prompt_first (p : Turn) (key : Option String)
    (api : List Turn → ApiResponse) (s : Store) (c : Nat) (msg : String)
    (hp : p.role = "system") (hinv : storeHeadedBy p s) :
    storeHeadedBy p (stepStore (some p) key api s c msg).1 ∧
    ∀ c' h, lookupStore (stepStore (some p) key api s c msg).1 c' = some h →
      h.head?.map Turn.role = some "system" := by
  have hpres : storeHeadedBy p (stepStore (some p) key api s c msg).1 := by
    intro c' h' hl
    unfold stepStore at hl
    cases hm : handle_message (some p) key api (lookupStore s c) msg with
    | mk fst snd =>
      cases fst with
      | none =>
        rw [hm] at hl
        exact hinv c' h' hl
      | some hnew =>
        rw [hm] at hl
        by_cases hc : c = c'
        · subst hc
          rw [lookup_set_self] at hl
          have hh : h' = hnew := (Option.some.inj hl).symm
          rw [hh]
          exact handle_head p key api (lookupStore s c) msg
            (fun h hh => hinv c h hh) hnew (by rw [hm])
        · rw [lookup_set_other s c c' hnew hc] at hl
          exact hinv c' h' hl
  refine ⟨hpres, fun c' h hl => ?_⟩
  rw [hpres c' h hl]
  simp [hp]

/-- Witness for C5: one failing message on a store that already holds a
conversation, and the invariant still holds afterwards. -/
theorem C5_system_prompt_first_witness :
    storeHeadedBy p0
      (stepStore (some p0) (some "k") (fun _ => ApiResponse.netError)
        [(1, [p0])] 1 "hi").1 ∧
    ∀ c' h,
      lookupStore
          (stepStore (some p0) (some "k") (fun _ => ApiResponse.netError)
            [(1, [p0])] 1 "hi").1 c' = some h →
        h.head?.map Turn.role = some "system" :=
  C5_system_prompt_first p0 (some "k") (fun _ => ApiResponse.netError)
    [(1, [p0])] 1 "hi" (by decide)
    (fun c h hl => by
      by_cases hc : (1 : Nat) = c
      · subst hc
        simp only [lookupStore, if_pos rfl] at hl
        have : h = [p0] := (Option.some.inj hl).symm
        rw [this]
        rfl
      · simp only [lookupStore, if_neg hc] at hl
        cases hl)

/-- C1 counterexample: a reachable History of length 21.  After 10 successful
exchanges the stored History has length 20; one more inbound message whose
completion call fails appends the user turn in place (line 92) and skips the
truncation (lines 115-117, success path only), leaving the stored History at
length 21 — so it is not the case that the length is at most 20 after any
update. -/
theorem C1_counterexample :
    ((handle_message (some p0) (some "k") (fun _ => ApiResponse.netError)
        (runConv (some p0) (some "k") (okApi (fun _ => "r")) none
          (List.replicate 10 "m")) "m").1).map List.length = some 21 ∧
    ¬ (21 ≤ 20) := by
  constructor
  · rfl
  · decide

/-- C1 amended: only the assistant-turn append (the success path) truncates:
there the new stored History is the posted list plus the assistant turn,
replaced by its first element plus its last 19 elements when longer than 20,
and its length is always at most 20.  The user-turn append alone never
truncates, so a failed completion can leave the stored History longer
than 20. -/
theorem C1_truncation_on_success (sp : Option Turn) (k : String)
    (api : List Turn → ApiResponse) (stored : Option (List Turn)) (msg : String)
    (hist : List Turn) (s : String)
    (hsent : sentHistory sp stored msg = some hist) (hk : ¬ k = "")
    (hres : get_llm_response (api hist) = Except.ok (some s)) (hs : ¬ s = "") :
    (handle_message sp (some k) api stored msg).1 =
      some (truncateHistory (hist ++ [assistantTurn s])) ∧
    ∀ h', (handle_message sp (some k) api stored msg).1 = some h' →
      h'.length ≤ 20 := by
  have hmain := handle_success sp k api stored msg hist s hsent hk hres hs
  refine ⟨by rw [hmain], fun h' hh => ?_⟩
  rw [hmain] at hh
  have : h' = truncateHistory (hist ++ [assistantTurn s]) := (Option.some.inj hh).symm
  rw [this]
  exact truncateHistory_length_le _

/-- Witness for C1's amended statement at a concrete successful exchange. -/
theorem C1_truncation_on_success_witness :
    (handle_message (some p0) (some "k") (okApi (fun _ => "r"))
        (some [p0]) "hi").1 =
      some (truncateHistory (([p0] ++ [userTurn "hi"]) ++ [assistantTurn "r"])) ∧
    ∀ h', (handle_message (some p0) (some "k") (okApi (fun _ => "r"))
        (some [p0]) "hi").1 = some h' → h'.length ≤ 20 :=
  C1_truncation_on_success (some p0) "k" (okApi (fun _ => "r")) (some [p0]) "hi"
    ([p0] ++ [userTurn "hi"]) "r" rfl (by decide) rfl (by decide)

/-- C2 counterexample: a fresh conversation whose first completion call
fails.  Line 119 never runs, so the store gets no entry at all — the
conversation's History does not contain the newly appended user turn
(there is no History), even though the user does get the failure text. -/
theorem C2_counterexample :
    (handle_message (some p0) (some "k") (fun _ => ApiResponse.netError)
        none "hi").1 = none ∧
    ¬ ∃ h, (handle_message (some p0) (some "k") (fun _ => ApiResponse.netError)
        none "hi").1 = some h ∧ userTurn "hi" ∈ h := by
  refine ⟨rfl, ?_⟩
  rintro ⟨h, hh, -⟩
  exact Option.noConfusion
    ((show (handle_message (some p0) (some "k") (fun _ => ApiResponse.netError)
        none "hi").1 = none from rfl) ▸ hh)

/-- C2 amended: when the completion call fails, a conversation with an
existing stored History keeps the newly appended user turn (the in-place
append of line 92 hits the stored list) and gains no assistant turn, and the
reply is the generic failure text; a fresh conversation, however, ends up
with no stored History at all (the user turn is lost), with the same failure
reply. -/
theorem C2_failure_keeps_user_turn (p : Turn) (h : List Turn) (k : String)
    (api : List Turn → ApiResponse) (msg : String) (hk : ¬ k = "")
    (hres1 : get_llm_response (api (h ++ [userTurn msg])) = Except.ok none)
    (hres2 : get_llm_response (api ([p] ++ [userTurn msg])) = Except.ok none) :
    handle_message (some p) (some k) api (some h) msg =
      (some (h ++ [userTurn msg]), Reply.text apiErrorText) ∧
    handle_message (some p) (some k) api none msg =
      (none, Reply.text apiErrorText) :=
  ⟨handle_failure (some p) k api (some h) msg (h ++ [userTurn msg]) rfl hk hres1,
   handle_failure (some p) k api none msg ([p] ++ [userTurn msg]) rfl hk hres2⟩

/-- Witness for C2's amended statement: a failing call on an existing and on
a fresh conversation. -/
theorem C2_failure_keeps_user_turn_witness :
    handle_message (some p0) (some "k") (fun _ => ApiResponse.netError)
        (some [p0]) "hi" =
      (some ([p0] ++ [userTurn "hi"]), Reply.text apiErrorText) ∧
    handle_message (some p0) (some "k") (fun _ => ApiResponse.netError)
        none "hi" =
      (none, Reply.text apiErrorText) :=
  C2_failure_keeps_user_turn p0 [p0] "k" (fun _ => ApiResponse.netError) "hi"
    (by decide) rfl rfl

/-- C3 counterexample: a 200 reply whose JSON body lacks
`choices[0].message.content` raises a `KeyError` that the
`except requests.exceptions.RequestException` clause does not catch, so the
failure escapes the handler instead of becoming a text reply; and a 304
status (non-2xx but below 400) is not turned into a failure either —
`raise_for_status` does not raise for it, and a well-shaped body is answered
as a normal reply. -/
theorem C3_counterexample :
    (handle_message (some p0) (some "k")
        (fun _ => ApiResponse.httpReply 200 Body.jsonNoContent)
        (some [p0]) "x").2 = Reply.crash ∧
    (handle_message (some p0) (some "k")
        (fun _ => ApiResponse.httpReply 304 (Body.jsonContent "hi"))
        (some [p0]) "x").2 = Reply.text "hi" :=
  ⟨rfl, rfl⟩

/-- C3 amended: network errors, 4xx/5xx statuses and non-JSON bodies are
caught and converted to the generic failure reply; the handler lets an
exception escape exactly when the response is a non-4xx/5xx status whose
JSON body lacks the expected `choices[0].message.content` path. -/
theorem C3_failure_boundary (sp : Option Turn) (k : String)
    (api : List Turn → ApiResponse) (stored : Option (List Turn)) (msg : String)
    (hist : List Turn) (hsent : sentHistory sp stored msg = some hist)
    (hk : ¬ k = "") :
    ((handle_message sp (some k) api stored msg).2 = Reply.crash ↔
      crashes (api hist) = true) ∧
    (caughtFailure (api hist) = true →
      (handle_message sp (some k) api stored msg).2 = Reply.text apiErrorText) := by
  constructor
  · rw [handle_crash_iff sp k api stored msg hist hsent hk]
    exact get_error_iff_crashes _
  · intro hc
    rw [handle_failure sp k api stored msg hist hsent hk (get_none_of_caught _ hc)]

/-- Witness for C3's amended statement at a network failure on an existing
conversation. -/
theorem C3_failure_boundary_witness :
    ((handle_message (some p0) (some "k") (fun _ => ApiResponse.netError)
        (some [p0]) "x").2 = Reply.crash ↔
      crashes ((fun _ => ApiResponse.netError) ([p0] ++ [userTurn "x"])) = true) ∧
    (caughtFailure ((fun _ => ApiResponse.netError) ([p0] ++ [userTurn "x"])) = true →
      (handle_message (some p0) (some "k") (fun _ => ApiResponse.netError)
        (some [p0]) "x").2 = Reply.text apiErrorText) :=
  C3_failure_boundary (some p0) "k" (fun _ => ApiResponse.netError) (some [p0]) "x"
    ([p0] ++ [userTurn "x"]) rfl (by decide)

/-- C7 counterexample: with a loaded system prompt and a set Telegram token
but no completion API key, `main` still reaches `run_polling` — nothing in
lines 129-147 checks `OPENROUTER_API_KEY`, so a missing completion key does
not prevent the process from serving. -/
theorem C7_counterexample : startsServing (some p0) (some "t") none = true := rfl

/-- C7 amended: a missing or unparsable prompt file and a missing or empty
Telegram bot token each prevent serving, but the completion API key plays no
role at startup at all — it is only checked per message. -/
theorem C7_startup_checks :
    (∀ tok key, startsServing none tok key = false) ∧
    (∀ sp key, startsServing sp none key = false) ∧
    (∀ sp key, startsServing sp (some "") key = false) ∧
    (∀ sp tok k k', startsServing sp tok k = startsServing sp tok k') := by
  refine ⟨fun tok key => rfl, fun sp key => ?_, fun sp key => ?_,
    fun sp tok k k' => rfl⟩
  · cases sp <;> rfl
  · cases sp <;> rfl

/-- C8 counterexample: the first message of a fresh conversation whose
completion fails creates no store entry — `chat_histories[chat_id] = history`
at line 119 is only executed on success, so an entry is not created on the
first message as such. -/
theorem C8_counterexample :
    (stepStore (some p0) (some "k") (fun _ => ApiResponse.netError)
        initialStore 1 "hi").1 = initialStore ∧
    lookupStore (stepStore (some p0) (some "k") (fun _ => ApiResponse.netError)
        initialStore 1 "hi").1 1 = none :=
  ⟨rfl, rfl⟩

/-- C8 amended: the store starts empty; an entry for a conversation is
created on its first successfully completed message, seeded with the system
prompt (a first message whose completion fails leaves no entry); and once an
entry exists, no later message ever removes it. -/
theorem C8_store_lifecycle :
    (∀ c, lookupStore initialStore c = none) ∧
    (∀ sp key api s c msg c', (lookupStore s c').isSome = true →
      (lookupStore (stepStore sp key api s c msg).1 c').isSome = true) ∧
    (∀ (p : Turn) (k : String) api (s : Store) (c : Nat) (msg str : String),
      lookupStore s c = none → ¬ k = "" →
      get_llm_response (api ([p] ++ [userTurn msg])) = Except.ok (some str) →
      ¬ str = "" →
      lookupStore (stepStore (some p) (some k) api s c msg).1 c =
        some [p, userTurn msg, assistantTurn str]) := by
  refine ⟨fun c => rfl, ?_, ?_⟩
  · intro sp key api s c msg c' hsome
    unfold stepStore
    cases hm : handle_message sp key api (lookupStore s c) msg with
    | mk fst snd =>
      cases fst with
      | none => exact hsome
      | some hnew =>
        by_cases hc : c = c'
        · subst hc
          rw [lookup_set_self]
          rfl
        · rw [lookup_set_other s c c' hnew hc]
          exact hsome
  · intro p k api s c msg str hnone hk hres hstr
    have hmain := handle_success (some p) k api none msg ([p] ++ [userTurn msg])
      str (rfl) hk hres hstr
    have htr : truncateHistory (([p] ++ [userTurn msg]) ++ [assistantTurn str]) =
        [p, userTurn msg, assistantTurn str] := by
      simp [truncateHistory]
    unfold stepStore
    rw [hnone, hmain, htr, lookup_set_self]

/-- Witness for C8's amended statement: a fresh store, one successful first
message creating the seeded entry, and entry preservation on an existing
store. -/
theorem C8_store_lifecycle_witness :
    lookupStore initialStore 7 = none ∧
    (lookupStore (stepStore (some p0) (some "k") (fun _ => ApiResponse.netError)
        [(2, [p0])] 2 "x").1 2).isSome = true ∧
    lookupStore (stepStore (some p0) (some "k") (okApi (fun _ => "r"))
        initialStore 1 "hi").1 1 =
      some [p0, userTurn "hi", assistantTurn "r"] :=
  ⟨C8_store_lifecycle.1 7,
   C8_store_lifecycle.2.1 (some p0) (some "k") (fun _ => ApiResponse.netError)
     [(2, [p0])] 2 "x" 2 rfl,
   C8_store_lifecycle.2.2 p0 "k" (okApi (fun _ => "r")) initialStore 1 "hi" "r"
     rfl (by decide) rfl (by decide)⟩

/-- C9 counterexample: after one successful exchange on a fresh conversation
the stored History has length 3, not 2 — the claim's stated length
contradicts its own role sequence [system, user, assistant]. -/
theorem C9_counterexample :
    ((handle_message (some p0) (some "k") (okApi (fun _ => "r"))
        none "a").1).map List.length = some 3 ∧
    ¬ ((3 : Nat) = 2) :=
  ⟨rfl, by decide⟩

/-- C9 amended: after exactly one successful exchange on a fresh
conversation the stored History is the system prompt, the user turn and the
assistant turn — length 3, roles [system, user, assistant] in that order. -/
theorem C9_one_exchange (p : Turn) (k : String) (api : List Turn → ApiResponse)
    (msg s : String) (hp : p.role = "system") (hk : ¬ k = "")
    (hres : get_llm_response (api ([p] ++ [userTurn msg])) = Except.ok (some s))
    (hs : ¬ s = "") :
    handle_message (some p) (some k) api none msg =
      (some [p, userTurn msg, assistantTurn s], Reply.text s) ∧
    ([p, userTurn msg, assistantTurn s] : List Turn).length = 3 ∧
    ([p, userTurn msg, assistantTurn s] : List Turn).map Turn.role =
      ["system", "user", "assistant"] := by
  have hmain := handle_success (some p) k api none msg ([p] ++ [userTurn msg])
    s rfl hk hres hs
  have htr : truncateHistory (([p] ++ [userTurn msg]) ++ [assistantTurn s]) =
      [p, userTurn msg, assistantTurn s] := by
    simp [truncateHistory]
  refine ⟨by rw [hmain, htr], rfl, ?_⟩
  simp [userTurn, assistantTurn, hp]

/-- Witness for C9's amended statement at a concrete exchange. -/
theorem C9_one_exchange_witness :
    handle_message (some p0) (some "k") (okApi (fun _ => "r")) none "a" =
      (some [p0, userTurn "a", assistantTurn "r"], Reply.text "r") ∧
    ([p0, userTurn "a", assistantTurn "r"] : List Turn).length = 3 ∧
    ([p0, userTurn "a", assistantTurn "r"] : List Turn).map Turn.role =
      ["system", "user", "assistant"] :=
  C9_one_exchange p0 "k" (okApi (fun _ => "r")) "a" "r" (by decide) (by decide)
    rfl (by decide)

/-- C10 counterexample: an empty-string reply on an existing conversation.
The bot does treat it as a failure (generic notice, no assistant turn, the
line-119 assignment is skipped) — but the History Store is still updated for
that message: the in-place user-turn append already changed the stored
entry from [system] to [system, user]. -/
theorem C10_counterexample :
    (stepStore (some p0) (some "k") (okApi (fun _ => "")) [(1, [p0])] 1 "hi").1 =
      [(1, [p0, userTurn "hi"])] ∧
    ¬ ((stepStore (some p0) (some "k") (okApi (fun _ => "")) [(1, [p0])] 1 "hi").1 =
      [(1, [p0])]) ∧
    (stepStore (some p0) (some "k") (okApi (fun _ => "")) [(1, [p0])] 1 "hi").2 =
      Reply.text apiErrorText :=
  ⟨rfl, by decide, rfl⟩

/-- C10 amended: an empty-string reply is treated as a failure — the user
gets the generic failure notice and no assistant turn is appended, and the
success-path store assignment is skipped; but the stored History still gains
the user turn for an existing conversation, while a fresh conversation gets
no entry at all. -/
theorem C10_empty_reply (p : Turn) (h : List Turn) (k : String)
    (api : List Turn → ApiResponse) (msg : String) (hk : ¬ k = "")
    (hres1 : get_llm_response (api (h ++ [userTurn msg])) = Except.ok (some ""))
    (hres2 : get_llm_response (api ([p] ++ [userTurn msg])) = Except.ok (some "")) :
    handle_message (some p) (some k) api (some h) msg =
      (some (h ++ [userTurn msg]), Reply.text apiErrorText) ∧
    handle_message (some p) (some k) api none msg =
      (none, Reply.text apiErrorText) :=
  ⟨handle_empty (some p) k api (some h) msg (h ++ [userTurn msg]) rfl hk hres1,
   handle_empty (some p) k api none msg ([p] ++ [userTurn msg]) rfl hk hres2⟩

/-- Witness for C10's amended statement with an endpoint that always answers
the empty string. -/
theorem C10_empty_reply_witness :
    handle_message (some p0) (some "k") (okApi (fun _ => "")) (some [p0]) "hi" =
      (some ([p0] ++ [userTurn "hi"]), Reply.text apiErrorText) ∧
    handle_message (some p0) (some "k") (okApi (fun _ => "")) none "hi" =
      (none, Reply.text apiErrorText) :=
  C10_empty_reply p0 [p0] "k" (okApi (fun _ => "")) "hi" (by decide) rfl rfl
